import Mathlib

/-!
Verification development for the analysis pipeline and thread store of the
`rts` analytics dashboard (pages `2_AI_DB_Analyst.py` and `2_AI_EDA.py`,
helpers in `src/utils.py`).

Modelling conventions:
* Python `str` is modelled as `List Char` (`Str` below).  Python list
  operations map to `List` operations.
* External collaborators (the LLM client `get_ai_response`, the database
  engine used by `pd.read_sql`, prompt templates, the filesystem) are
  modelled as oracle parameters: an LLM response is a string, a SQL
  execution either yields a result set (abstract type `Df`) or raises an
  error message, the final-report LLM call either yields the report text
  or raises.
* Python's `json.dump(threads, f, indent=2, ensure_ascii=False)` /
  `json.load(f)` are modelled by a concrete pretty-printing serializer for
  the thread-list shape the store writes, and by a recursive-descent JSON
  parser (strings, arrays, objects, `true`/`false`/`null`, numeric
  lexemes) with explicit fuel.
-/

namespace RTS

/-- Python strings, modelled as lists of characters. -/
abbrev Str := List Char

/-- The whitespace characters removed by Python's `str.strip()`
(ASCII range: space, tab, newline, carriage return, vertical tab, form feed). -/
def isPyWs (c : Char) : Bool :=
  c = ' ' || c = '\t' || c = '\n' || c = '\r' || c = Char.ofNat 11 || c = Char.ofNat 12

/-- Python `s.strip()`: drop whitespace from both ends. -/
def pyStrip (s : Str) : Str :=
  ((s.dropWhile isPyWs).reverse.dropWhile isPyWs).reverse

/-- Python `sep.join(parts)`. -/
def joinSep (sep : Str) : List Str → Str
  | [] => []
  | [x] => x
  | x :: y :: ys => x ++ (sep ++ joinSep sep (y :: ys))

/-- `n` spaces (used by the JSON pretty printer's `indent=2`). -/
def spaces (n : Nat) : Str := List.replicate n ' '

/-- A newline followed by `k` spaces: the whitespace run produced between
items by `json.dump(..., indent=2)`. -/
def wsrun (k : Nat) : Str := '\n' :: spaces k

/- ### SQL extraction (`get_sql_from_ai_response`, both page modules)

The source applies `re.search(r"` ``` `sql\n(.*?)\n` ``` `", full_response, re.DOTALL)`
and returns `match.group(1).strip()` when it matches, else
`full_response.strip()`.  The regex is a pair of literal markers around a
non-greedy gap, so `re.search` succeeds exactly when the first occurrence
of the opening marker is followed (anywhere later) by the closing marker;
the group is then the text between the first opening marker and the first
closing marker after it.  (A later opening marker cannot start a match
when the first one cannot: any closing marker after the later one is also
after the first one.)  `findFirst pat s` splits `s` at the first
occurrence of `pat`. -/

/-- The backtick character. -/
def btick : Char := '\x60'

/-- The literal opening marker of the regex: three backticks, `sql`, newline. -/
def sqlOpen : Str := [btick, btick, btick, 's', 'q', 'l', '\n']

/-- The literal closing marker of the regex: newline, three backticks. -/
def sqlClose : Str := ['\n', btick, btick, btick]

/-- Split `s` at the first occurrence of `pat`: `some (before, after)` with
`s = before ++ pat ++ after` at the leftmost occurrence, else `none`. -/
def findFirst (pat : Str) : Str → Option (Str × Str)
  | [] => if pat.isPrefixOf [] then some ([], []) else none
  | c :: rest =>
    if pat.isPrefixOf (c :: rest) then some ([], (c :: rest).drop pat.length)
    else
      match findFirst pat rest with
      | some (pre, post) => some (c :: pre, post)
      | none => none

/-- `get_sql_from_ai_response` (2_AI_DB_Analyst.py lines 53-63, 2_AI_EDA.py
lines 78-81), applied to the joined full response text: take the contents of
the first fenced ` ```sql ` block if the regex matches, else the whole
response; strip either way. -/
def get_sql_from_ai_response (full_response : Str) : Str :=
  match findFirst sqlOpen full_response with
  | some (_, afterOpen) =>
    match findFirst sqlClose afterOpen with
    | some (content, _) => pyStrip content
    | none => pyStrip full_response
  | none => pyStrip full_response

/- ### Data model: messages and threads (2_AI_EDA.py) -/

/-- One turn in a thread: `{"role": ..., "content": ...}`. -/
structure Message where
  role : Str
  content : Str
deriving DecidableEq, Repr

/-- A persisted conversation unit: `{"id": ..., "title": ..., "messages": [...]}`. -/
structure Thread where
  id : Str
  title : Str
  messages : List Message
deriving DecidableEq, Repr

/-- `truncate_text` (2_AI_EDA.py line 43-44):
`(text[:max_length] + '...') if len(text) > max_length else text`.
The call sites use the default `max_length=35`. -/
def truncate_text (t : Str) (max_length : Nat) : Str :=
  if t.length > max_length then t.take max_length ++ "...".data else t

/-- `format_conversation_history` (2_AI_EDA.py lines 46-51): render each
message as `"User:\n{content}"` or `"Assistant:\n{content}"` and join the
turns with blank lines (`"\n\n".join`). -/
def format_conversation_history (messages : List Message) : Str :=
  joinSep "\n\n".data
    (messages.map fun m =>
      (if m.role = "user".data then "User".data else "Assistant".data)
        ++ (':' :: ('\n' :: m.content)))

/- ### JSON: the value shape of `json.load`, the serializer of `json.dump` -/

/-- Parsed JSON values, as produced by the model of `json.load`.  Numeric
literals are kept as raw lexemes (the thread store never writes numbers, so
their value is irrelevant here). -/
inductive Json where
  | str (s : Str)
  | num (lexeme : Str)
  | bool (b : Bool)
  | null
  | arr (elems : List Json)
  | obj (fields : List (Str × Json))

/-- The object key `"role"`. -/
def roleKey : Str := "role".data

/-- The object key `"content"`. -/
def contentKey : Str := "content".data

/-- The object key `"id"`. -/
def idKey : Str := "id".data

/-- The object key `"title"`. -/
def titleKey : Str := "title".data

/-- The object key `"messages"`. -/
def messagesKey : Str := "messages".data

/-- Lowercase hex digit, as printed by Python's `'\\u%04x'` escape. -/
def hexDigit (k : Nat) : Char :=
  if k < 10 then Char.ofNat (48 + k) else Char.ofNat (87 + k)

/-- How `json.dump` escapes one character inside a string literal
(`ensure_ascii=False`): quote, backslash and the named control characters
get two-character escapes, the remaining control characters get `\\u00XX`,
everything else is written as is. -/
def escapeChar (c : Char) : Str :=
  if c = '"' then ['\\', '"']
  else if c = '\\' then ['\\', '\\']
  else if c = Char.ofNat 8 then ['\\', 'b']
  else if c = Char.ofNat 12 then ['\\', 'f']
  else if c = '\n' then ['\\', 'n']
  else if c = '\r' then ['\\', 'r']
  else if c = '\t' then ['\\', 't']
  else if c.toNat < 32 then
    ['\\', 'u', '0', '0', hexDigit (c.toNat / 16), hexDigit (c.toNat % 16)]
  else [c]

/-- Escape a whole string body. -/
def escapeString (s : Str) : Str := s.flatMap escapeChar

/-- A JSON string literal: `"` escaped body `"`. -/
def renderString (s : Str) : Str := '"' :: (escapeString s ++ ['"'])

/-- `json.dump` output for one message object, whose own closing brace is
indented by `ind` spaces (member lines by `ind + 2`). -/
def renderMessage (ind : Nat) (m : Message) : Str :=
  '\x7b' :: (wsrun (ind + 2) ++
    (renderString roleKey ++ (':' :: (' ' :: (renderString m.role ++
    (',' :: (wsrun (ind + 2) ++
    (renderString contentKey ++ (':' :: (' ' :: (renderString m.content ++
    (wsrun ind ++ ['\x7d']))))))))))))

/-- Second and later elements of a message array: `,` newline indent item. -/
def renderMessagesTail (ind : Nat) : List Message → Str
  | [] => []
  | m :: ms => ',' :: (wsrun ind ++ (renderMessage ind m ++ renderMessagesTail ind ms))

/-- `json.dump` output for a message array at indentation `ind`. -/
def renderMessages (ind : Nat) : List Message → Str
  | [] => ['[', ']']
  | m :: ms =>
    '[' :: (wsrun (ind + 2) ++ (renderMessage (ind + 2) m ++
      (renderMessagesTail (ind + 2) ms ++ (wsrun ind ++ [']']))))

/-- `json.dump` output for one thread object (keys in insertion order:
`id`, `title`, `messages`). -/
def renderThread (ind : Nat) (t : Thread) : Str :=
  '\x7b' :: (wsrun (ind + 2) ++
    (renderString idKey ++ (':' :: (' ' :: (renderString t.id ++
    (',' :: (wsrun (ind + 2) ++
    (renderString titleKey ++ (':' :: (' ' :: (renderString t.title ++
    (',' :: (wsrun (ind + 2) ++
    (renderString messagesKey ++ (':' :: (' ' :: (renderMessages (ind + 2) t.messages ++
    (wsrun ind ++ ['\x7d']))))))))))))))))))

/-- Second and later elements of the top-level thread array. -/
def renderThreadsTail (ind : Nat) : List Thread → Str
  | [] => []
  | t :: ts => ',' :: (wsrun ind ++ (renderThread ind t ++ renderThreadsTail ind ts))

/-- The exact file content written by
`json.dump(threads, f, indent=2, ensure_ascii=False)` (2_AI_EDA.py line 27). -/
def renderThreads : List Thread → Str
  | [] => ['[', ']']
  | t :: ts =>
    '[' :: (wsrun 2 ++ (renderThread 2 t ++
      (renderThreadsTail 2 ts ++ (wsrun 0 ++ [']']))))

/- ### JSON parser (model of `json.load`) -/

/-- The whitespace skipped between JSON tokens. -/
def isWs (c : Char) : Bool := c = ' ' || c = '\n' || c = '\t' || c = '\r'

/-- Skip leading JSON whitespace. -/
def skipWs : Str → Str
  | [] => []
  | c :: rest => if isWs c then skipWs rest else c :: rest

/-- Value of one hex digit. -/
def hexVal (c : Char) : Option Nat :=
  if 48 ≤ c.toNat ∧ c.toNat ≤ 57 then some (c.toNat - 48)
  else if 97 ≤ c.toNat ∧ c.toNat ≤ 102 then some (c.toNat - 87)
  else if 65 ≤ c.toNat ∧ c.toNat ≤ 70 then some (c.toNat - 55)
  else none

/-- Two-character escapes accepted after a backslash in a JSON string. -/
def unescape (e : Char) : Option Char :=
  if e = '"' then some '"'
  else if e = '\\' then some '\\'
  else if e = '/' then some '/'
  else if e = 'b' then some (Char.ofNat 8)
  else if e = 'f' then some (Char.ofNat 12)
  else if e = 'n' then some '\n'
  else if e = 'r' then some '\r'
  else if e = 't' then some '\t'
  else none

/-- Decode one escape sequence after a backslash: the decoded character and
the remaining input. -/
def escHead : Str → Option (Char × Str)
  | [] => none
  | e :: rest =>
    if e = 'u' then
      match rest with
      | h1 :: h2 :: h3 :: h4 :: rest2 =>
        match hexVal h1, hexVal h2, hexVal h3, hexVal h4 with
        | some x1, some x2, some x3, some x4 =>
          some (Char.ofNat (((x1 * 16 + x2) * 16 + x3) * 16 + x4), rest2)
        | _, _, _, _ => none
      | _ => none
    else (unescape e).map fun u => (u, rest)

/-- Parse the body of a JSON string after the opening quote; returns the
decoded content and the remainder after the closing quote.  The fuel only
bounds the recursion; every step consumes at least one input character, so
`length + 1` fuel always suffices. -/
def parseStringBody : Nat → Str → Option (Str × Str)
  | 0, _ => none
  | _ + 1, [] => none
  | n + 1, c :: rest =>
    if c = '"' then some ([], rest)
    else if c = '\\' then
      match escHead rest with
      | some (u, rest2) => (parseStringBody n rest2).map fun p => (u :: p.1, p.2)
      | none => none
    else (parseStringBody n rest).map fun p => (c :: p.1, p.2)

/-- First character of a numeric literal. -/
def isNumStart (c : Char) : Bool := c = '-' || c.isDigit

/-- Characters that may continue a numeric literal. -/
def isNumChar (c : Char) : Bool :=
  c.isDigit || c = '-' || c = '+' || c = '.' || c = 'e' || c = 'E'

mutual

/-- Parse one JSON value (after skipping whitespace); `fuel` bounds the
recursion depth and strictly decreases on every call. -/
def parseValue : Nat → Str → Option (Json × Str)
  | 0, _ => none
  | n + 1, s => parseValueCore n (skipWs s)

/-- Parse one JSON value whose first token starts at the head of the input. -/
def parseValueCore : Nat → Str → Option (Json × Str)
  | 0, _ => none
  | n + 1, s =>
    match s with
    | [] => none
    | c :: rest =>
      if c = '"' then
        (parseStringBody (rest.length + 1) rest).map fun p => (Json.str p.1, p.2)
      else if c = '[' then
        match skipWs rest with
        | [] => none
        | c2 :: r2 =>
          if c2 = ']' then some (Json.arr [], r2)
          else (parseElems n rest).map fun p => (Json.arr p.1, p.2)
      else if c = '\x7b' then
        match skipWs rest with
        | [] => none
        | c2 :: r2 =>
          if c2 = '\x7d' then some (Json.obj [], r2)
          else (parseFields n rest).map fun p => (Json.obj p.1, p.2)
      else if c = 't' then
        match rest with
        | 'r' :: 'u' :: 'e' :: r => some (Json.bool true, r)
        | _ => none
      else if c = 'f' then
        match rest with
        | 'a' :: 'l' :: 's' :: 'e' :: r => some (Json.bool false, r)
        | _ => none
      else if c = 'n' then
        match rest with
        | 'u' :: 'l' :: 'l' :: r => some (Json.null, r)
        | _ => none
      else if isNumStart c then
        some (Json.num (c :: rest.takeWhile isNumChar), rest.dropWhile isNumChar)
      else none

/-- Parse the elements of a non-empty array (the opening bracket already
consumed), up to and including the closing bracket. -/
def parseElems : Nat → Str → Option (List Json × Str)
  | 0, _ => none
  | n + 1, s =>
    match parseValue n s with
    | none => none
    | some (v, r) =>
      match skipWs r with
      | [] => none
      | c :: r2 =>
        if c = ',' then (parseElems n r2).map fun p => (v :: p.1, p.2)
        else if c = ']' then some ([v], r2)
        else none

/-- Parse the members of a non-empty object (the opening brace already
consumed), up to and including the closing brace. -/
def parseFields : Nat → Str → Option (List (Str × Json) × Str)
  | 0, _ => none
  | n + 1, s =>
    match skipWs s with
    | [] => none
    | c :: rest =>
      if c = '"' then
        match parseStringBody (rest.length + 1) rest with
        | none => none
        | some (k, r) =>
          match skipWs r with
          | [] => none
          | c2 :: r2 =>
            if c2 = ':' then
              match parseValue n r2 with
              | none => none
              | some (v, r3) =>
                match skipWs r3 with
                | [] => none
                | c3 :: r4 =>
                  if c3 = ',' then (parseFields n r4).map fun p => ((k, v) :: p.1, p.2)
                  else if c3 = '\x7d' then some ([(k, v)], r4)
                  else none
            else none
      else none

end

/-- Model of `json.load` on a whole file content: the document is one value
followed only by whitespace; anything else raises `JSONDecodeError`,
modelled as `none`. -/
def parseJson (s : Str) : Option Json :=
  match parseValue (s.length + 4) s with
  | some (v, rest) => if skipWs rest = [] then some v else none
  | none => none

/- ### Thread store persistence (2_AI_EDA.py lines 20-40) -/

/-- The on-disk state of `.history_cache.json`. -/
inductive Disk where
  | missing
  | file (content : Str)
deriving DecidableEq

/-- `save_threads_to_disk` (lines 23-29): write
`json.dump(threads, f, indent=2, ensure_ascii=False)` to the cache file. -/
def save_threads_to_disk (threads : List Thread) : Disk :=
  Disk.file (renderThreads threads)

/-- `load_threads_from_disk` (lines 31-40): a missing file yields `[]`;
otherwise `json.load` the content, and a `JSONDecodeError`/`IOError`
yields `[]`.  The raw parsed value is returned, as in the source. -/
def load_threads_from_disk : Disk → Json
  | Disk.missing => Json.arr []
  | Disk.file content =>
    match parseJson content with
    | some j => j
    | none => Json.arr []

/-- The JSON value `json.dump` serializes for one message
(`{"role": ..., "content": ...}` with keys in insertion order). -/
def messageToJson (m : Message) : Json :=
  Json.obj [(roleKey, Json.str m.role), (contentKey, Json.str m.content)]

/-- The JSON value serialized for one thread. -/
def threadToJson (t : Thread) : Json :=
  Json.obj [(idKey, Json.str t.id), (titleKey, Json.str t.title),
    (messagesKey, Json.arr (t.messages.map messageToJson))]

/-- The JSON value serialized for the whole collection. -/
def threadsToJson (ts : List Thread) : Json := Json.arr (ts.map threadToJson)

/-- Key lookup in a parsed JSON object (Python `thread["id"]` etc.). -/
def jGetField (fields : List (Str × Json)) (key : Str) : Option Json :=
  (fields.find? fun p => p.1 == key).map Prod.snd

/-- `mapOption f l`: all-or-nothing traversal, used by the decoders. -/
def mapOption (f : α → Option β) : List α → Option (List β)
  | [] => some []
  | a :: l =>
    match f a with
    | none => none
    | some b =>
      match mapOption f l with
      | none => none
      | some bs => some (b :: bs)

/-- Read one message back from its parsed JSON object, by the key accesses
the page code performs (`msg["role"]`, `msg["content"]`). -/
def jsonToMessage : Json → Option Message
  | Json.obj fields =>
    match jGetField fields roleKey, jGetField fields contentKey with
    | some (Json.str r), some (Json.str c) => some ⟨r, c⟩
    | _, _ => none
  | _ => none

/-- Read one thread back from its parsed JSON object (`thread["id"]`,
`thread["title"]`, `thread["messages"]`). -/
def jsonToThread : Json → Option Thread
  | Json.obj fields =>
    match jGetField fields idKey, jGetField fields titleKey,
        jGetField fields messagesKey with
    | some (Json.str i), some (Json.str ttl), some (Json.arr ms) =>
      match mapOption jsonToMessage ms with
      | some msgs => some ⟨i, ttl, msgs⟩
      | none => none
    | _, _, _ => none
  | _ => none

/-- Read the whole thread collection back from the parsed file content. -/
def jsonToThreads : Json → Option (List Thread)
  | Json.arr xs => mapOption jsonToThread xs
  | _ => none

/- ### Thread store operations (2_AI_EDA.py lines 114-146) -/

/-- The thread built by `create_new_thread` for question/report, with the
freshly generated id (`str(uuid.uuid4())` is an external collaborator,
passed in as `newId`). -/
def mkThread (question report newId : Str) : Thread :=
  ⟨newId, truncate_text question 35,
    [⟨"user".data, question⟩, ⟨"assistant".data, report⟩]⟩

/-- `create_new_thread` (lines 114-127): build the new thread, insert it at
index 0, persist the whole collection, return the new id. -/
def create_new_thread (threads : List Thread) (question report newId : Str) :
    List Thread × Disk × Str :=
  let newList := mkThread question report newId :: threads
  (newList, save_threads_to_disk newList, newId)

/-- Append a message to the first thread with the given id, leaving the
rest of the collection unchanged (the in-place mutation of
`add_message_to_thread`). -/
def appendToFirst (tid : Str) (m : Message) : List Thread → List Thread
  | [] => []
  | t :: ts =>
    if t.id = tid then ⟨t.id, t.title, t.messages ++ [m]⟩ :: ts
    else t :: appendToFirst tid m ts

/-- `add_message_to_thread` (lines 129-134): locate the thread by id; if
found, append the message and persist; otherwise do nothing. -/
def add_message_to_thread (threads : List Thread) (thread_id role content : Str) :
    List Thread × Option Disk :=
  if threads.any fun t => t.id == thread_id then
    let updated := appendToFirst thread_id ⟨role, content⟩ threads
    (updated, some (save_threads_to_disk updated))
  else (threads, none)

/-- `delete_thread` (lines 136-139), the collection part: keep every thread
whose id differs, persist the result.  (Lines 140-142 additionally reset
the per-session view state when the deleted thread was selected.) -/
def delete_thread (threads : List Thread) (thread_id : Str) : List Thread × Disk :=
  let remaining := threads.filter fun t => !(t.id == thread_id)
  (remaining, save_threads_to_disk remaining)

/-- `clear_all_threads` (lines 144-146). -/
def clear_all_threads : List Thread × Disk := ([], save_threads_to_disk [])

/-- The follow-up derivation of the `view_thread` block (2_AI_EDA.py lines
227-236): when the last message is a user message, the formatted history of
all earlier messages and the last question are substituted into the
follow-up prompt (`conversation_history` and `follow_up_question` slots).
Returns `none` when no answer generation is triggered. -/
def followUpInputs (t : Thread) : Option (Str × Str) :=
  match t.messages.getLast? with
  | some m =>
    if m.role = "user".data then
      some (format_conversation_history t.messages.dropLast, m.content)
    else none
  | none => none

/- ### The analysis pipeline (both page modules)

The LLM and the database are oracles:
* `genResponse` is the full text of the initial SQL-generation response
  (the `db_analyst`/`follow_up` prompt call);
* `correctResponse faulty err` is the full text of the `sql_corrector`
  response for the given faulty SQL and error message (question and schema
  context are fixed for the run);
* `exec sql` is `pd.read_sql(text(sql), engine)`: a result set or an
  exception message;
* `reportResponse df` is the `final_analyst` call on the rendered result
  set: the report text, or the exception raised while streaming it
  (`get_ai_response` returns `None` on failure and joining `None` raises
  `TypeError`);
* `emptyDf` is the initial `pd.DataFrame()` of 2_AI_DB_Analyst.py line 79.
-/
structure PipelineEnv (Df : Type) where
  genResponse : Str
  correctResponse : Str → Str → Str
  exec : Str → Except Str Df
  reportResponse : Df → Except Str Str
  emptyDf : Df

/-- Oracle-call counters for one pipeline run. -/
structure CallCounts where
  execs : Nat
  corrs : Nat
  reports : Nat
deriving DecidableEq, Repr

/-- Totals reported for one pipeline run: LLM calls for SQL
generation/correction, SQL executions, final-report LLM calls. -/
structure RunStats where
  sqlLlmCalls : Nat
  execCalls : Nat
  reportCalls : Nat
deriving DecidableEq, Repr

/-- Outcome of the retry loop of 2_AI_DB_Analyst.py lines 89-116. -/
inductive SqlLoopOut (Df : Type) where
  | success (df : Df) (sql : Str)
  | fatal (errorMessage faultySql : Str)
  | exhausted (sql : Str)

/-- The `for attempt in range(max_retries)` loop of 2_AI_DB_Analyst.py
(lines 89-116), parameterised by the number of remaining attempts: execute;
on success break; on failure invoke the corrector when attempts remain
(`attempt < max_retries - 1`), else show the error and the final SQL and
stop.  Also counts executions and corrector calls. -/
def analystLoop (exec : Str → Except Str Df) (correct : Str → Str → Str) :
    Str → Nat → SqlLoopOut Df × CallCounts
  | sql, 0 => (SqlLoopOut.exhausted sql, ⟨0, 0, 0⟩)
  | sql, n + 1 =>
    match exec sql with
    | Except.ok df => (SqlLoopOut.success df sql, ⟨1, 0, 0⟩)
    | Except.error e =>
      match n with
      | 0 => (SqlLoopOut.fatal e sql, ⟨1, 0, 0⟩)
      | _ + 1 =>
        let r := analystLoop exec correct (correct sql e) n
        (r.1, ⟨r.2.execs + 1, r.2.corrs + 1, r.2.reports⟩)

/-- Result of one 2_AI_DB_Analyst.py analysis action. -/
inductive AnalystResult where
  | report (text : Str)
  | fatal (errorMessage faultySql : Str)
  | synthesisFailure (errorMessage : Str)
deriving DecidableEq, Repr

/-- Result of one 2_AI_EDA.py `run_analysis_pipeline` call. -/
inductive EdaResult where
  | report (text : Str)
  | fatal (errorMessage faultySql : Str)
  | noReport
deriving DecidableEq, Repr

/-- The SQL first extracted from the initial generation response
(`generated_sql = get_sql_from_ai_response(...)`). -/
def initialSql (env : PipelineEnv Df) : Str :=
  get_sql_from_ai_response env.genResponse

/-- One corrector round: invoke the LLM on the `sql_corrector` prompt for
the faulty SQL and error message, extract SQL from the response. -/
def correctedSql (env : PipelineEnv Df) (faultySql errorMessage : Str) : Str :=
  get_sql_from_ai_response (env.correctResponse faultySql errorMessage)

/-- The SQL produced by the single corrector round when the first execution
fails with `f` giving the error text per statement. -/
def secondSql (env : PipelineEnv Df) (f : Str → Str) : Str :=
  correctedSql env (initialSql env) (f (initialSql env))

/-- The module-level analysis action of 2_AI_DB_Analyst.py lines 77-126:
initial generation, the retry loop with `max_retries = 2`, then — only
after the loop — the final report synthesis (which has no retry; a failure
there propagates). -/
def analystPipeline (env : PipelineEnv Df) : AnalystResult × RunStats :=
  let r := analystLoop env.exec (correctedSql env) (initialSql env) 2
  match r.1 with
  | SqlLoopOut.success df _ =>
    match env.reportResponse df with
    | Except.ok rep => (AnalystResult.report rep, ⟨1 + r.2.corrs, r.2.execs, 1⟩)
    | Except.error e => (AnalystResult.synthesisFailure e, ⟨1 + r.2.corrs, r.2.execs, 1⟩)
  | SqlLoopOut.fatal e sql => (AnalystResult.fatal e sql, ⟨1 + r.2.corrs, r.2.execs, 0⟩)
  | SqlLoopOut.exhausted _ =>
    match env.reportResponse env.emptyDf with
    | Except.ok rep => (AnalystResult.report rep, ⟨1 + r.2.corrs, r.2.execs, 1⟩)
    | Except.error e => (AnalystResult.synthesisFailure e, ⟨1 + r.2.corrs, r.2.execs, 1⟩)

/-- Outcome of the `for attempt in range(2)` loop of
`run_analysis_pipeline` (2_AI_EDA.py lines 89-102). -/
inductive EdaLoopOut where
  | success (reportText : Str)
  | fatal (errorMessage faultySql : Str)
  | fellThrough

/-- The loop body of `run_analysis_pipeline`: the `try` block executes the
SQL **and** synthesizes the report, so an exception from either is caught
by the same handler, which invokes the SQL corrector while attempts remain
(`attempt < 1`) and otherwise shows the error and the SQL and stops. -/
def edaLoop (exec : Str → Except Str Df) (correct : Str → Str → Str)
    (report : Df → Except Str Str) : Str → Nat → EdaLoopOut × CallCounts
  | _, 0 => (EdaLoopOut.fellThrough, ⟨0, 0, 0⟩)
  | sql, n + 1 =>
    match exec sql with
    | Except.ok df =>
      match report df with
      | Except.ok rep => (EdaLoopOut.success rep, ⟨1, 0, 1⟩)
      | Except.error e =>
        match n with
        | 0 => (EdaLoopOut.fatal e sql, ⟨1, 0, 1⟩)
        | _ + 1 =>
          let r := edaLoop exec correct report (correct sql e) n
          (r.1, ⟨r.2.execs + 1, r.2.corrs + 1, r.2.reports + 1⟩)
    | Except.error e =>
      match n with
      | 0 => (EdaLoopOut.fatal e sql, ⟨1, 0, 0⟩)
      | _ + 1 =>
        let r := edaLoop exec correct report (correct sql e) n
        (r.1, ⟨r.2.execs + 1, r.2.corrs + 1, r.2.reports⟩)

/-- `run_analysis_pipeline` (2_AI_EDA.py lines 87-103): initial generation,
then the two-attempt loop whose `try` covers execution and report
synthesis; falling out of the loop returns `None`. -/
def edaPipeline (env : PipelineEnv Df) : EdaResult × RunStats :=
  let r := edaLoop env.exec (correctedSql env) env.reportResponse (initialSql env) 2
  match r.1 with
  | EdaLoopOut.success rep => (EdaResult.report rep, ⟨1 + r.2.corrs, r.2.execs, r.2.reports⟩)
  | EdaLoopOut.fatal e sql => (EdaResult.fatal e sql, ⟨1 + r.2.corrs, r.2.execs, r.2.reports⟩)
  | EdaLoopOut.fellThrough => (EdaResult.noReport, ⟨1 + r.2.corrs, r.2.execs, r.2.reports⟩)

/- ### Schema context builders (`get_database_context`, both page modules)

`ddl t` models `SHOW CREATE TABLE` for table `t` (result text or raised
error), `tables` the enumeration (`inspector.get_table_names()` /
`SHOW TABLES`), `queryFiles` the `(name, content)` pairs of
`Path("queries").rglob("*.sql")`. -/

/-- The DDL section header appended before the per-table loop. -/
def schemaHeader : Str := "### 데이터베이스 스키마 (DDL)".data

/-- The example-query parts: when any `queries/**/*.sql` files exist, a
header followed by one tagged part per file. -/
def exampleParts (queryFiles : List (Str × Str)) : List Str :=
  match queryFiles with
  | [] => []
  | _ =>
    "\n### 모범 SQL 쿼리 예시".data ::
      queryFiles.map fun p => "-- From: ".data ++ (p.1 ++ ('\n' :: p.2))

/-- `get_database_context` of 2_AI_EDA.py (lines 54-76): the `try/except`
sits **inside** the per-table loop, so a failing table is warned about and
skipped and the loop continues. -/
def get_database_context_eda (ddl : Str → Except Str Str) (tables : List Str)
    (queryFiles : List (Str × Str)) : Str :=
  joinSep "\n\n".data
    (schemaHeader :: ((tables.filterMap fun t => (ddl t).toOption) ++ exampleParts queryFiles))

/-- The DDL parts collected by 2_AI_DB_Analyst.py's loop: the `try` wraps
the **whole** loop, so the first failing table aborts DDL collection and
every later table's DDL is lost. -/
def analystDdlParts (ddl : Str → Except Str Str) : List Str → List Str
  | [] => []
  | t :: rest =>
    match ddl t with
    | Except.ok d => d :: analystDdlParts ddl rest
    | Except.error _ => []

/-- `get_database_context` of 2_AI_DB_Analyst.py (lines 20-51): header,
DDL of the tables up to the first failure, then the example-query section
(its own `try`). -/
def get_database_context_analyst (ddl : Str → Except Str Str) (tables : List Str)
    (queryFiles : List (Str × Str)) : Str :=
  joinSep "\n\n".data
    (schemaHeader :: (analystDdlParts ddl tables ++ exampleParts queryFiles))

/- ### Concrete instances used by the closed theorems below -/

/-- An environment in which every SQL execution fails with error `E`. -/
def envAllFail : PipelineEnv Unit :=
  ⟨"SELECT 1;".data, fun _ _ => "SELECT 2;".data,
    fun _ => Except.error "E".data, fun _ => Except.ok "R".data, ()⟩

/-- The synthesis-failure message observed when `get_ai_response` returns
`None` and the caller joins it. -/
def synthErr : Str := "TypeError: 'NoneType' object is not iterable".data

/-- An environment in which every execution succeeds and every
final-report LLM call fails. -/
def envSynthFail : PipelineEnv Unit :=
  ⟨"SELECT 1;".data, fun _ _ => "SELECT 2;".data,
    fun _ => Except.ok (), fun _ => Except.error synthErr, ()⟩

/-- A DDL oracle failing exactly on table `t1`. -/
def ddlW (t : Str) : Except Str Str :=
  if t = "t1".data then Except.error "boom".data
  else Except.ok ("CREATE TABLE ".data ++ t)

/-- The two-table enumeration used for the context-builder counterexample. -/
def tablesW : List Str := ["t1".data, "t2".data]

/- ### Helper lemmas -/

theorem escapeChar_length (c : Char) : 1 ≤ (escapeChar c).length := by
  unfold escapeChar
  repeat' split
  all_goals simp

theorem escapeString_length (s : Str) : s.length ≤ (escapeString s).length := by
  induction s with
  | nil => simp [escapeString]
  | cons c s ih =>
    have h := escapeChar_length c
    simp only [escapeString, List.flatMap_cons, List.length_append, List.length_cons]
    simp only [escapeString] at ih
    omega

theorem hexVal_hexDigit (k : Nat) (h : k < 16) : hexVal (hexDigit k) = some k := by
  interval_cases k <;> decide

theorem escHead_hex (c : Char) (h8 : c.toNat < 32) (tail : Str) :
    escHead ('u' :: '0' :: '0' :: hexDigit (c.toNat / 16) :: hexDigit (c.toNat % 16) :: tail)
      = some (c, tail) := by
  have hdiv : c.toNat / 16 < 16 := by omega
  have hmod : c.toNat % 16 < 16 := Nat.mod_lt _ (by omega)
  have h00 : hexVal '0' = some 0 := by decide
  have harith : ((0 * 16 + 0) * 16 + c.toNat / 16) * 16 + c.toNat % 16 = c.toNat := by omega
  simp only [escHead, ite_true, if_pos]
  rw [h00, hexVal_hexDigit _ hdiv, hexVal_hexDigit _ hmod]
  simp only [harith, Char.ofNat_toNat]

theorem parseStringBody_escape (s : Str) :
    ∀ f rest, s.length + 1 ≤ f →
      parseStringBody f (escapeString s ++ ('"' :: rest)) = some (s, rest) := by
  induction s with
  | nil =>
    intro f rest hf
    obtain ⟨g, rfl⟩ : ∃ g, f = g + 1 := ⟨f - 1, by omega⟩
    simp [escapeString, parseStringBody]
  | cons c s ih =>
    intro f rest hf
    obtain ⟨g, rfl⟩ : ∃ g, f = g + 1 := ⟨f - 1, by omega⟩
    have hg : s.length + 1 ≤ g := by
      simp only [List.length_cons] at hf; omega
    have hesc : escapeString (c :: s) = escapeChar c ++ escapeString s := by
      simp [escapeString]
    rw [hesc, List.append_assoc]
    by_cases h1 : c = '"'
    · subst h1
      simp [escapeChar, parseStringBody, escHead, unescape, ih _ rest hg]
    · by_cases h2 : c = '\\'
      · subst h2
        simp [escapeChar, parseStringBody, escHead, unescape, ih _ rest hg]
      · by_cases h3 : c = Char.ofNat 8
        · subst h3
          simp [escapeChar, parseStringBody, escHead, unescape, ih _ rest hg]
        · by_cases h4 : c = Char.ofNat 12
          · subst h4
            simp [escapeChar, parseStringBody, escHead, unescape, ih _ rest hg]
          · by_cases h5 : c = '\n'
            · subst h5
              simp [escapeChar, parseStringBody, escHead, unescape, ih _ rest hg]
            · by_cases h6 : c = '\r'
              · subst h6
                simp [escapeChar, parseStringBody, escHead, unescape, ih _ rest hg]
              · by_cases h7 : c = '\t'
                · subst h7
                  simp [escapeChar, parseStringBody, escHead, unescape, ih _ rest hg]
                · by_cases h8 : c.toNat < 32
                  · have hesc2 : escapeChar c = '\\' :: 'u' :: '0' :: '0' ::
                        hexDigit (c.toNat / 16) :: hexDigit (c.toNat % 16) :: [] := by
                      simp [escapeChar, h1, h2, h3, h4, h5, h6, h7, h8]
                    rw [hesc2]
                    simp [parseStringBody, escHead_hex c h8, ih _ rest hg]
                  · simp [escapeChar, h1, h2, h3, h4, h5, h6, h7, h8, parseStringBody,
                      ih _ rest hg]

theorem skipWs_spaces (k : Nat) (s : Str) : skipWs (spaces k ++ s) = skipWs s := by
  induction k with
  | zero => simp [spaces]
  | succ n ih => simpa [spaces, List.replicate_succ, skipWs, isWs] using ih

theorem skipWs_wsrun (k : Nat) (s : Str) : skipWs (wsrun k ++ s) = skipWs s := by
  simpa [wsrun, skipWs, isWs] using skipWs_spaces k s

theorem skipWs_nonws (c : Char) (s : Str) (h : isWs c = false) : skipWs (c :: s) = c :: s := by
  simp [skipWs, h]

theorem skipWs_space (s : Str) : skipWs (' ' :: s) = skipWs s := by
  simp [skipWs, isWs]

/-- `vtxt` parses as the value `v` under any fuel of at least `B`,
consuming exactly `vtxt`. -/
def ParsesVal (B : Nat) (vtxt : Str) (v : Json) : Prop :=
  ∀ f tail, B ≤ f → parseValue f (vtxt ++ tail) = some (v, tail)

theorem parseValue_wsPre (f : Nat) (pre s : Str)
    (hpre : ∀ t, skipWs (pre ++ t) = skipWs t) :
    parseValue f (pre ++ s) = parseValue f s := by
  cases f with
  | zero => rfl
  | succ n => simp [parseValue, hpre]

theorem parsesVal_renderString (s : Str) : ParsesVal 2 (renderString s) (Json.str s) := by
  intro f tail hf
  obtain ⟨g, rfl⟩ : ∃ g, f = g + 2 := ⟨f - 2, by omega⟩
  have hr : renderString s ++ tail = '"' :: (escapeString s ++ ('"' :: tail)) := by
    simp [renderString]
  rw [hr, show g + 2 = (g + 1) + 1 from rfl]
  simp only [parseValue]
  rw [skipWs_nonws _ _ (by decide)]
  simp only [parseValueCore]
  rw [parseStringBody_escape s _ _ (by
    have := escapeString_length s
    simp only [List.length_append, List.length_cons]
    omega)]
  simp

theorem parseFields_last (B : Nat) (k : Str) (vtxt : Str) (v : Json)
    (hV : ParsesVal B vtxt v) (f wk we : Nat) (rest : Str) (hB : B ≤ f) :
    parseFields (f + 1)
      (wsrun wk ++ (renderString k ++ (':' :: (' ' :: (vtxt ++ (wsrun we ++ ('\x7d' :: rest)))))))
      = some ([(k, v)], rest) := by
  simp only [parseFields]
  rw [skipWs_wsrun]
  have hk : renderString k ++ (':' :: (' ' :: (vtxt ++ (wsrun we ++ ('\x7d' :: rest)))))
      = '"' :: (escapeString k ++ ('"' :: (':' :: (' ' :: (vtxt ++ (wsrun we ++ ('\x7d' :: rest))))))) := by
    simp [renderString]
  rw [hk, skipWs_nonws _ _ (by decide)]
  simp only [ite_true, if_pos]
  rw [parseStringBody_escape k _ _ (by
    have := escapeString_length k
    simp only [List.length_append, List.length_cons]
    omega)]
  simp only []
  rw [skipWs_nonws _ _ (by decide)]
  simp only [ite_true, if_pos]
  rw [show (' ' :: (vtxt ++ (wsrun we ++ ('\x7d' :: rest))))
      = [' '] ++ (vtxt ++ (wsrun we ++ ('\x7d' :: rest))) from rfl]
  rw [parseValue_wsPre _ _ _ (fun t => skipWs_space t), hV f _ hB]
  simp only []
  rw [skipWs_wsrun, skipWs_nonws _ _ (by decide)]
  simp

theorem parseFields_cons (B : Nat) (k : Str) (vtxt : Str) (v : Json)
    (hV : ParsesVal B vtxt v) (f wk : Nat) (cont rest : Str) (fs : List (Str × Json))
    (hB : B ≤ f) (hrec : parseFields f cont = some (fs, rest)) :
    parseFields (f + 1)
      (wsrun wk ++ (renderString k ++ (':' :: (' ' :: (vtxt ++ (',' :: cont))))))
      = some ((k, v) :: fs, rest) := by
  simp only [parseFields]
  rw [skipWs_wsrun]
  have hk : renderString k ++ (':' :: (' ' :: (vtxt ++ (',' :: cont))))
      = '"' :: (escapeString k ++ ('"' :: (':' :: (' ' :: (vtxt ++ (',' :: cont)))))) := by
    simp [renderString]
  rw [hk, skipWs_nonws _ _ (by decide)]
  simp only [ite_true, if_pos]
  rw [parseStringBody_escape k _ _ (by
    have := escapeString_length k
    simp only [List.length_append, List.length_cons]
    omega)]
  simp only []
  rw [skipWs_nonws _ _ (by decide)]
  simp only [ite_true, if_pos]
  rw [show (' ' :: (vtxt ++ (',' :: cont))) = [' '] ++ (vtxt ++ (',' :: cont)) from rfl]
  rw [parseValue_wsPre _ _ _ (fun t => skipWs_space t), hV f _ hB]
  simp only []
  rw [skipWs_nonws _ _ (by decide)]
  simp [hrec]

theorem parsesVal_renderMessage (ind : Nat) (m : Message) :
    ParsesVal 8 (renderMessage ind m) (messageToJson m) := by
  intro f rest hf
  obtain ⟨g, rfl⟩ : ∃ g, f = g + 8 := ⟨f - 8, by omega⟩
  have hin : renderMessage ind m ++ rest
      = '\x7b' :: (wsrun (ind + 2) ++ (renderString roleKey ++ (':' :: (' ' ::
        (renderString m.role ++ (',' :: (wsrun (ind + 2) ++ (renderString contentKey ++
        (':' :: (' ' :: (renderString m.content ++ (wsrun ind ++ ('\x7d' :: rest))))))))))))) := by
    simp only [renderMessage, List.cons_append, List.append_assoc, List.nil_append]
  rw [hin, show g + 8 = (g + 7) + 1 from rfl]
  simp only [parseValue]
  rw [skipWs_nonws _ _ (by decide)]
  rw [show g + 7 = (g + 6) + 1 from rfl]
  simp only [parseValueCore]
  rw [if_neg (show ¬(('\x7b' : Char) = '"') by decide),
    if_neg (show ¬(('\x7b' : Char) = '[') by decide)]
  simp only [eq_self_iff_true, if_true]
  obtain ⟨z, hz⟩ : ∃ z, renderString roleKey = '"' :: z := ⟨_, rfl⟩
  have hb : skipWs (wsrun (ind + 2) ++ (renderString roleKey ++ (':' :: (' ' ::
      (renderString m.role ++ (',' :: (wsrun (ind + 2) ++ (renderString contentKey ++
      (':' :: (' ' :: (renderString m.content ++ (wsrun ind ++ ('\x7d' :: rest)))))))))))))
      = '"' :: (z ++ (':' :: (' ' :: (renderString m.role ++ (',' :: (wsrun (ind + 2) ++
        (renderString contentKey ++ (':' :: (' ' :: (renderString m.content ++
        (wsrun ind ++ ('\x7d' :: rest)))))))))))) := by
    rw [skipWs_wsrun, hz, List.cons_append]
    exact skipWs_nonws _ _ (by decide)
  rw [hb]
  simp only []
  rw [if_neg (show ¬(('"' : Char) = '\x7d') by decide)]
  rw [show g + 6 = (g + 5) + 1 from rfl]
  rw [parseFields_cons 2 roleKey (renderString m.role) (Json.str m.role)
    (parsesVal_renderString m.role) (g + 5) (ind + 2) _ _ _ (by omega)
    (by
      rw [show g + 5 = (g + 4) + 1 from rfl]
      exact parseFields_last 2 contentKey (renderString m.content) (Json.str m.content)
        (parsesVal_renderString m.content) (g + 4) (ind + 2) ind rest (by omega))]
  simp [messageToJson]

theorem skipWs_head (k : Nat) (x y : Str) (c : Char) (z : Str) (hx : x = c :: z)
    (hc : isWs c = false) : skipWs (wsrun k ++ (x ++ y)) = c :: (z ++ y) := by
  rw [skipWs_wsrun, hx, List.cons_append]
  exact skipWs_nonws _ _ hc

theorem parseElems_messages (ind : Nat) (ms : List Message) :
    ∀ (m : Message) (f : Nat) (rest : Str), ms.length + 10 ≤ f →
      parseElems f (wsrun (ind + 2) ++ (renderMessage (ind + 2) m ++
          (renderMessagesTail (ind + 2) ms ++ (wsrun ind ++ (']' :: rest)))))
        = some ((m :: ms).map messageToJson, rest) := by
  induction ms with
  | nil =>
    intro m f rest hf
    obtain ⟨n, rfl⟩ : ∃ n, f = n + 1 := ⟨f - 1, by omega⟩
    simp only [parseElems, renderMessagesTail, List.nil_append]
    rw [parseValue_wsPre _ _ _ (skipWs_wsrun (ind + 2)),
      parsesVal_renderMessage (ind + 2) m n _ (by omega)]
    simp only []
    rw [skipWs_wsrun, skipWs_nonws _ _ (by decide)]
    simp
  | cons m2 ms ih =>
    intro m f rest hf
    simp only [List.length_cons] at hf
    obtain ⟨n, rfl⟩ : ∃ n, f = n + 1 := ⟨f - 1, by omega⟩
    simp only [parseElems, renderMessagesTail]
    have hmid : renderMessage (ind + 2) m ++
        ((',' :: (wsrun (ind + 2) ++ (renderMessage (ind + 2) m2 ++
          renderMessagesTail (ind + 2) ms))) ++ (wsrun ind ++ (']' :: rest)))
        = renderMessage (ind + 2) m ++ (',' :: (wsrun (ind + 2) ++
            (renderMessage (ind + 2) m2 ++ (renderMessagesTail (ind + 2) ms ++
              (wsrun ind ++ (']' :: rest)))))) := by
      simp [List.append_assoc]
    rw [hmid]
    rw [parseValue_wsPre _ _ _ (skipWs_wsrun (ind + 2)),
      parsesVal_renderMessage (ind + 2) m n _ (by omega)]
    simp only []
    rw [skipWs_nonws _ _ (by decide)]
    simp only [eq_self_iff_true, if_true]
    rw [ih m2 n rest (by omega)]
    simp

theorem parsesVal_renderMessages (ind : Nat) (ms : List Message) :
    ParsesVal (ms.length + 12) (renderMessages ind ms) (Json.arr (ms.map messageToJson)) := by
  intro f rest hf
  cases ms with
  | nil =>
    obtain ⟨g, rfl⟩ : ∃ g, f = g + 2 := ⟨f - 2, by omega⟩
    rw [show renderMessages ind [] ++ rest = '[' :: (']' :: rest) from rfl]
    rw [show g + 2 = (g + 1) + 1 from rfl]
    simp only [parseValue]
    rw [skipWs_nonws _ _ (by decide)]
    simp only [parseValueCore]
    rw [if_neg (show ¬(('[' : Char) = '"') by decide)]
    simp only [eq_self_iff_true, if_true]
    rw [skipWs_nonws _ _ (by decide)]
    simp
  | cons m ms' =>
    simp only [List.length_cons] at hf
    obtain ⟨g, rfl⟩ : ∃ g, f = g + 13 := ⟨f - 13, by omega⟩
    have hin : renderMessages ind (m :: ms') ++ rest
        = '[' :: (wsrun (ind + 2) ++ (renderMessage (ind + 2) m ++
            (renderMessagesTail (ind + 2) ms' ++ (wsrun ind ++ (']' :: rest))))) := by
      simp only [renderMessages, List.cons_append, List.append_assoc, List.nil_append]
    rw [hin, show g + 13 = (g + 12) + 1 from rfl]
    simp only [parseValue]
    rw [skipWs_nonws _ _ (by decide)]
    rw [show g + 12 = (g + 11) + 1 from rfl]
    simp only [parseValueCore]
    rw [if_neg (show ¬(('[' : Char) = '"') by decide)]
    simp only [eq_self_iff_true, if_true]
    rw [skipWs_head (ind + 2) (renderMessage (ind + 2) m) _ _ _ rfl (by decide)]
    simp only []
    rw [if_neg (show ¬(('\x7b' : Char) = ']') by decide)]
    rw [parseElems_messages ind ms' m (g + 11) rest (by omega)]
    simp

theorem parsesVal_renderThread (ind : Nat) (t : Thread) :
    ParsesVal (t.messages.length + 24) (renderThread ind t) (threadToJson t) := by
  intro f rest hf
  obtain ⟨g, rfl⟩ : ∃ g, f = g + t.messages.length + 24 :=
    ⟨f - (t.messages.length + 24), by omega⟩
  have hin : renderThread ind t ++ rest
      = '\x7b' :: (wsrun (ind + 2) ++ (renderString idKey ++ (':' :: (' ' ::
        (renderString t.id ++ (',' :: (wsrun (ind + 2) ++ (renderString titleKey ++
        (':' :: (' ' :: (renderString t.title ++ (',' :: (wsrun (ind + 2) ++
        (renderString messagesKey ++ (':' :: (' ' :: (renderMessages (ind + 2) t.messages ++
        (wsrun ind ++ ('\x7d' :: rest))))))))))))))))))) := by
    simp only [renderThread, List.cons_append, List.append_assoc, List.nil_append]
  rw [hin, show g + t.messages.length + 24 = (g + t.messages.length + 23) + 1 from rfl]
  simp only [parseValue]
  rw [skipWs_nonws _ _ (by decide)]
  rw [show g + t.messages.length + 23 = (g + t.messages.length + 22) + 1 from rfl]
  simp only [parseValueCore]
  rw [if_neg (show ¬(('\x7b' : Char) = '"') by decide),
    if_neg (show ¬(('\x7b' : Char) = '[') by decide)]
  simp only [eq_self_iff_true, if_true]
  rw [skipWs_head (ind + 2) (renderString idKey) _ _ _ rfl (by decide)]
  simp only []
  rw [if_neg (show ¬(('"' : Char) = '\x7d') by decide)]
  rw [show g + t.messages.length + 22 = (g + t.messages.length + 21) + 1 from rfl]
  rw [parseFields_cons 2 idKey (renderString t.id) (Json.str t.id)
    (parsesVal_renderString t.id) (g + t.messages.length + 21) (ind + 2) _ _ _ (by omega)
    (by
      rw [show g + t.messages.length + 21 = (g + t.messages.length + 20) + 1 from rfl]
      exact parseFields_cons 2 titleKey (renderString t.title) (Json.str t.title)
        (parsesVal_renderString t.title) (g + t.messages.length + 20) (ind + 2) _ _ _ (by omega)
        (by
          rw [show g + t.messages.length + 20 = (g + t.messages.length + 19) + 1 from rfl]
          exact parseFields_last (t.messages.length + 12) messagesKey
            (renderMessages (ind + 2) t.messages) (Json.arr (t.messages.map messageToJson))
            (parsesVal_renderMessages (ind + 2) t.messages)
            (g + t.messages.length + 19) (ind + 2) ind rest (by omega)))]
  simp [threadToJson]

/-- Fuel cost charged per thread when parsing the top-level array. -/
def threadSize (t : Thread) : Nat := t.messages.length + 26

/-- Total fuel charged for the tail of the thread array. -/
def threadsB (ts : List Thread) : Nat := (ts.map threadSize).sum

theorem parseElems_threads (ind : Nat) (ts : List Thread) :
    ∀ (t : Thread) (f : Nat) (rest : Str), threadsB ts + t.messages.length + 26 ≤ f →
      parseElems f (wsrun ind ++ (renderThread ind t ++
          (renderThreadsTail ind ts ++ (wsrun 0 ++ (']' :: rest)))))
        = some ((t :: ts).map threadToJson, rest) := by
  induction ts with
  | nil =>
    intro t f rest hf
    obtain ⟨n, rfl⟩ : ∃ n, f = n + 1 := ⟨f - 1, by omega⟩
    simp only [parseElems, renderThreadsTail, List.nil_append]
    rw [parseValue_wsPre _ _ _ (skipWs_wsrun ind),
      parsesVal_renderThread ind t n _ (by omega)]
    simp only []
    rw [skipWs_wsrun, skipWs_nonws _ _ (by decide)]
    simp
  | cons t2 ts ih =>
    intro t f rest hf
    simp only [threadsB, List.map_cons, List.sum_cons, threadSize] at hf
    obtain ⟨n, rfl⟩ : ∃ n, f = n + 1 := ⟨f - 1, by omega⟩
    simp only [parseElems, renderThreadsTail]
    have hmid : renderThread ind t ++
        ((',' :: (wsrun ind ++ (renderThread ind t2 ++ renderThreadsTail ind ts)))
          ++ (wsrun 0 ++ (']' :: rest)))
        = renderThread ind t ++ (',' :: (wsrun ind ++ (renderThread ind t2 ++
            (renderThreadsTail ind ts ++ (wsrun 0 ++ (']' :: rest)))))) := by
      simp [List.append_assoc]
    rw [hmid]
    rw [parseValue_wsPre _ _ _ (skipWs_wsrun ind),
      parsesVal_renderThread ind t n _ (by omega)]
    simp only []
    rw [skipWs_nonws _ _ (by decide)]
    simp only [eq_self_iff_true, if_true]
    rw [ih t2 n rest (by simp only [threadsB]; omega)]
    simp

theorem parsesVal_renderThreads (ts : List Thread) :
    ParsesVal (threadsB ts + 4) (renderThreads ts) (threadsToJson ts) := by
  intro f rest hf
  cases ts with
  | nil =>
    obtain ⟨g, rfl⟩ : ∃ g, f = g + 2 := ⟨f - 2, by omega⟩
    rw [show renderThreads [] ++ rest = '[' :: (']' :: rest) from rfl]
    rw [show g + 2 = (g + 1) + 1 from rfl]
    simp only [parseValue]
    rw [skipWs_nonws _ _ (by decide)]
    simp only [parseValueCore]
    rw [if_neg (show ¬(('[' : Char) = '"') by decide)]
    simp only [eq_self_iff_true, if_true]
    rw [skipWs_nonws _ _ (by decide)]
    simp [threadsToJson]
  | cons t ts' =>
    simp only [threadsB, List.map_cons, List.sum_cons, threadSize] at hf
    obtain ⟨n, rfl⟩ : ∃ n, f = n + 2 := ⟨f - 2, by omega⟩
    have hin : renderThreads (t :: ts') ++ rest
        = '[' :: (wsrun 2 ++ (renderThread 2 t ++
            (renderThreadsTail 2 ts' ++ (wsrun 0 ++ (']' :: rest))))) := by
      simp only [renderThreads, List.cons_append, List.append_assoc, List.nil_append]
    rw [hin, show n + 2 = (n + 1) + 1 from rfl]
    simp only [parseValue]
    rw [skipWs_nonws _ _ (by decide)]
    simp only [parseValueCore]
    rw [if_neg (show ¬(('[' : Char) = '"') by decide)]
    simp only [eq_self_iff_true, if_true]
    rw [skipWs_head 2 (renderThread 2 t) _ _ _ rfl (by decide)]
    simp only []
    rw [if_neg (show ¬(('\x7b' : Char) = ']') by decide)]
    rw [parseElems_threads 2 ts' t n rest (by simp only [threadsB]; omega)]
    simp [threadsToJson]

theorem wsrun_length (k : Nat) : (wsrun k).length = k + 1 := by
  simp [wsrun, spaces]

theorem renderString_length (s : Str) :
    (renderString s).length = (escapeString s).length + 2 := by
  simp [renderString]

theorem renderMessagesTail_length (ind : Nat) (ms : List Message) :
    ms.length ≤ (renderMessagesTail ind ms).length := by
  induction ms with
  | nil => simp [renderMessagesTail]
  | cons m ms ih =>
    simp only [renderMessagesTail, List.length_cons, List.length_append, wsrun_length]
    omega

theorem renderMessages_length (ind : Nat) (ms : List Message) :
    ms.length ≤ (renderMessages ind ms).length := by
  cases ms with
  | nil => simp [renderMessages]
  | cons m ms' =>
    have h := renderMessagesTail_length (ind + 2) ms'
    simp only [renderMessages, List.length_cons, List.length_append, wsrun_length]
    omega

theorem renderThread_length (ind : Nat) (t : Thread) :
    t.messages.length + 26 ≤ (renderThread ind t).length := by
  have h := renderMessages_length (ind + 2) t.messages
  simp only [renderThread, List.length_cons, List.length_append, wsrun_length,
    renderString_length]
  omega

theorem renderThreadsTail_length (ind : Nat) (ts : List Thread) :
    threadsB ts ≤ (renderThreadsTail ind ts).length := by
  induction ts with
  | nil => simp [renderThreadsTail, threadsB]
  | cons t ts ih =>
    have h := renderThread_length ind t
    simp only [renderThreadsTail, threadsB, List.map_cons, List.sum_cons, threadSize,
      List.length_cons, List.length_append, wsrun_length]
    simp only [threadsB] at ih
    omega

theorem renderThreads_length (ts : List Thread) :
    threadsB ts ≤ (renderThreads ts).length := by
  cases ts with
  | nil => simp [renderThreads, threadsB]
  | cons t ts' =>
    have h1 := renderThread_length 2 t
    have h2 := renderThreadsTail_length 2 ts'
    simp only [renderThreads, threadsB, List.map_cons, List.sum_cons, threadSize,
      List.length_cons, List.length_append, wsrun_length]
    simp only [threadsB] at h2
    omega

theorem parseJson_renderThreads (ts : List Thread) :
    parseJson (renderThreads ts) = some (threadsToJson ts) := by
  unfold parseJson
  have h := parsesVal_renderThreads ts ((renderThreads ts).length + 4) []
    (by have := renderThreads_length ts; omega)
  rw [List.append_nil] at h
  rw [h]
  rfl

theorem jsonToMessage_messageToJson (m : Message) :
    jsonToMessage (messageToJson m) = some m := by
  have h2 : (roleKey == contentKey) = false := by decide
  simp [jsonToMessage, messageToJson, jGetField, List.find?, h2]

theorem mapOption_messages (ms : List Message) :
    mapOption jsonToMessage (ms.map messageToJson) = some ms := by
  induction ms with
  | nil => rfl
  | cons m ms ih => simp [mapOption, jsonToMessage_messageToJson, ih]

theorem jsonToThread_threadToJson (t : Thread) :
    jsonToThread (threadToJson t) = some t := by
  have h1 : (idKey == titleKey) = false := by decide
  have h2 : (idKey == messagesKey) = false := by decide
  have h3 : (titleKey == messagesKey) = false := by decide
  simp [jsonToThread, threadToJson, jGetField, List.find?, h1, h2, h3,
    mapOption_messages]

theorem jsonToThreads_threadsToJson (ts : List Thread) :
    jsonToThreads (threadsToJson ts) = some ts := by
  simp only [jsonToThreads, threadsToJson]
  induction ts with
  | nil => rfl
  | cons t ts ih => simp [List.map_cons, mapOption, jsonToThread_threadToJson, ih]

theorem load_save_roundtrip (ts : List Thread) :
    jsonToThreads (load_threads_from_disk (save_threads_to_disk ts)) = some ts := by
  simp [save_threads_to_disk, load_threads_from_disk, parseJson_renderThreads,
    jsonToThreads_threadsToJson]

/- ### Further helper lemmas: SQL extraction, retry loops, context builder -/

theorem findFirst_append (pat x y : Str) (hy : pat.isPrefixOf y = true)
    (hx : ∀ i, i < x.length → pat.isPrefixOf (x.drop i ++ y) = false) :
    findFirst pat (x ++ y) = some (x, y.drop pat.length) := by
  induction x with
  | nil =>
    cases y with
    | nil =>
      have hp : pat = [] := List.prefix_nil.mp (List.isPrefixOf_iff_prefix.mp hy)
      simp [findFirst, hy, hp]
    | cons c r => simp [findFirst, hy]
  | cons a x ih =>
    have h0 : pat.isPrefixOf (a :: (x ++ y)) = false := by
      have h := hx 0 (by simp)
      simpa using h
    have hx2 : ∀ i, i < x.length → pat.isPrefixOf (x.drop i ++ y) = false := by
      intro i hi
      have h := hx (i + 1) (by simpa using Nat.succ_lt_succ hi)
      simpa using h
    simp [findFirst, h0, ih hx2]

theorem findFirst_eq_none (pat s : Str) (h : ¬ pat <:+: s) : findFirst pat s = none := by
  induction s with
  | nil =>
    have hp : pat.isPrefixOf ([] : Str) = false := by
      cases hq : pat.isPrefixOf ([] : Str) with
      | false => rfl
      | true => exact absurd (List.isPrefixOf_iff_prefix.mp hq).isInfix h
    simp [findFirst, hp]
  | cons c rest ih =>
    have h1 : pat.isPrefixOf (c :: rest) = false := by
      cases hq : pat.isPrefixOf (c :: rest) with
      | false => rfl
      | true => exact absurd (List.isPrefixOf_iff_prefix.mp hq).isInfix h
    have h2 : ¬ pat <:+: rest := fun hh => h (List.infix_cons hh)
    simp [findFirst, h1, ih h2]

theorem opener_not_prefix_mid (a z : Str) (ha : btick ∉ a) :
    ∀ i, i < a.length → sqlOpen.isPrefixOf (a.drop i ++ (sqlOpen ++ z)) = false := by
  intro i hi
  rw [List.drop_eq_getElem_cons hi]
  have hne : ¬ (btick == a[i]) = true := by
    simp only [beq_iff_eq]
    intro h
    exact ha (h ▸ List.getElem_mem hi)
  simp [sqlOpen, List.isPrefixOf, hne]

theorem closer_not_prefix_mid (c z : Str) (hc : ¬ sqlClose <:+: c) :
    ∀ i, i < c.length → sqlClose.isPrefixOf (c.drop i ++ (sqlClose ++ z)) = false := by
  intro i hi
  cases hq : sqlClose.isPrefixOf (c.drop i ++ (sqlClose ++ z)) with
  | false => rfl
  | true =>
    exfalso
    have hlen : (c.drop i).length = c.length - i := List.length_drop i c
    rcases hd : c.drop i with _ | ⟨d0, _ | ⟨d1, _ | ⟨d2, _ | ⟨d3, dr⟩⟩⟩⟩
    · rw [hd] at hlen; simp at hlen; omega
    · rw [hd] at hq
      simp [sqlClose, List.isPrefixOf, btick] at hq
    · rw [hd] at hq
      simp [sqlClose, List.isPrefixOf, btick] at hq
    · rw [hd] at hq
      simp [sqlClose, List.isPrefixOf, btick] at hq
    · rw [hd] at hq
      simp only [sqlClose, List.cons_append, List.isPrefixOf, Bool.and_eq_true, beq_iff_eq] at hq
      obtain ⟨h0, h1, h2, h3, -⟩ := hq
      have hpre : sqlClose <+: c.drop i := by
        rw [hd, ← h0, ← h1, ← h2, ← h3]
        exact ⟨dr, rfl⟩
      exact hc (hpre.isInfix.trans (List.drop_suffix i c).isInfix)

theorem extract_first_block (a c b : Str) (ha : btick ∉ a) (hc : ¬ sqlClose <:+: c) :
    get_sql_from_ai_response (a ++ (sqlOpen ++ (c ++ (sqlClose ++ b)))) = pyStrip c := by
  have h1 : findFirst sqlOpen (a ++ (sqlOpen ++ (c ++ (sqlClose ++ b))))
      = some (a, c ++ (sqlClose ++ b)) := by
    have h := findFirst_append sqlOpen a (sqlOpen ++ (c ++ (sqlClose ++ b)))
      (List.isPrefixOf_iff_prefix.mpr (List.prefix_append _ _))
      (opener_not_prefix_mid a (c ++ (sqlClose ++ b)) ha)
    rwa [List.drop_left] at h
  have h2 : findFirst sqlClose (c ++ (sqlClose ++ b)) = some (c, b) := by
    have h := findFirst_append sqlClose c (sqlClose ++ b)
      (List.isPrefixOf_iff_prefix.mpr (List.prefix_append _ _))
      (closer_not_prefix_mid c b hc)
    rwa [List.drop_left] at h
  simp [get_sql_from_ai_response, h1, h2]

theorem extract_no_block (s : Str) (hs : ¬ sqlOpen <:+: s) :
    get_sql_from_ai_response s = pyStrip s := by
  simp [get_sql_from_ai_response, findFirst_eq_none sqlOpen s hs]

theorem analystLoop_two {Df : Type} (exec : Str → Except Str Df) (correct : Str → Str → Str)
    (sql e0 e1 : Str) (h0 : exec sql = Except.error e0)
    (h1 : exec (correct sql e0) = Except.error e1) :
    analystLoop exec correct sql 2 = (SqlLoopOut.fatal e1 (correct sql e0), ⟨2, 1, 0⟩) := by
  simp [analystLoop, h0, h1]

theorem edaLoop_two {Df : Type} (exec : Str → Except Str Df) (correct : Str → Str → Str)
    (report : Df → Except Str Str) (sql e0 e1 : Str) (h0 : exec sql = Except.error e0)
    (h1 : exec (correct sql e0) = Except.error e1) :
    edaLoop exec correct report sql 2 = (EdaLoopOut.fatal e1 (correct sql e0), ⟨2, 1, 0⟩) := by
  simp [edaLoop, h0, h1]

theorem mem_infix_joinSep (sep : Str) (parts : List Str) (x : Str) (hx : x ∈ parts) :
    x <:+: joinSep sep parts := by
  induction parts with
  | nil => cases hx
  | cons p ps ih =>
    cases ps with
    | nil =>
      rw [List.mem_singleton] at hx
      subst hx
      exact List.infix_refl x
    | cons q qs =>
      have hj : joinSep sep (p :: q :: qs) = p ++ (sep ++ joinSep sep (q :: qs)) := rfl
      rcases List.mem_cons.mp hx with rfl | hx2
      · rw [hj]
        exact (List.prefix_append _ _).isInfix
      · rw [hj]
        exact (ih hx2).trans
          (((List.suffix_append sep _).trans (List.suffix_append p _)).isInfix)

theorem filterMap_filter_isSome (f : α → Option β) (l : List α) :
    l.filterMap f = (l.filter fun a => (f a).isSome).filterMap f := by
  induction l with
  | nil => rfl
  | cons a l ih =>
    cases h : f a <;> simp [List.filterMap_cons, List.filter_cons, h, ih]

/- ### Claim theorems -/

/-- C1: when every SQL execution attempt fails, both pipeline
implementations (the 2_AI_DB_Analyst.py module-level loop and 2_AI_EDA.py's
`run_analysis_pipeline`) invoke the LLM for SQL generation/correction
exactly 2 times (one initial generation plus one correction), execute
candidate SQL exactly 2 times — never a 3rd — make no report LLM call, and
terminate fatally reporting the last error message and the last faulty
SQL, producing no report. -/
theorem C1_retry_ceiling (Df : Type) (env : PipelineEnv Df) (f : Str → Str)
    (hfail : ∀ s, env.exec s = Except.error (f s)) :
    analystPipeline env
      = (AnalystResult.fatal (f (secondSql env f)) (secondSql env f), ⟨2, 2, 0⟩) ∧
    edaPipeline env
      = (EdaResult.fatal (f (secondSql env f)) (secondSql env f), ⟨2, 2, 0⟩) := by
  constructor
  · unfold analystPipeline
    rw [analystLoop_two env.exec (correctedSql env) (initialSql env) _ _ (hfail _) (hfail _)]
    rfl
  · unfold edaPipeline
    rw [edaLoop_two env.exec (correctedSql env) env.reportResponse (initialSql env) _ _
      (hfail _) (hfail _)]
    rfl

/-- C1 witness: the concrete all-failures environment. -/
theorem C1_retry_ceiling_witness :
    analystPipeline envAllFail
      = (AnalystResult.fatal "E".data "SELECT 2;".data, ⟨2, 2, 0⟩) ∧
    edaPipeline envAllFail
      = (EdaResult.fatal "E".data "SELECT 2;".data, ⟨2, 2, 0⟩) :=
  C1_retry_ceiling Unit envAllFail (fun _ => "E".data) (fun _ => rfl)

/-- C2: evaluation of both pipelines at an input where the SQL executes
successfully and the final-report LLM call fails.  In 2_AI_DB_Analyst.py
the failure propagates (`synthesisFailure`, one report call, no corrector
call).  In 2_AI_EDA.py's `run_analysis_pipeline` the same failure is caught
by the SQL-retry handler: the `sql_corrector` prompt IS invoked
(`sqlLlmCalls = 2`), the replacement SQL is re-executed (`execCalls = 2`),
and report synthesis IS retried (`reportCalls = 2`), contradicting the
claim for that implementation. -/
theorem C2_synthesis_failure_eval :
    analystPipeline envSynthFail = (AnalystResult.synthesisFailure synthErr, ⟨1, 1, 1⟩) ∧
    edaPipeline envSynthFail = (EdaResult.fatal synthErr "SELECT 2;".data, ⟨2, 2, 2⟩) := by
  constructor <;> decide

/-- C3: extraction returns the stripped contents of the first fenced
`sql` block when one is present (first-match: `b` may contain further
blocks), in particular `"SELECT 1;"` for a block containing `SELECT 1;`,
and returns the whole stripped response when no fenced `sql` block is
present.  `ha` states the text before the block contains no backtick (so
the block shown is the first), `hc` that the block content contains no
closing fence. -/
theorem C3_sql_extraction (a c b s : Str) (ha : btick ∉ a) (hc : ¬ sqlClose <:+: c)
    (hs : ¬ sqlOpen <:+: s) :
    get_sql_from_ai_response (a ++ (sqlOpen ++ (c ++ (sqlClose ++ b)))) = pyStrip c ∧
    get_sql_from_ai_response (a ++ (sqlOpen ++ ("SELECT 1;".data ++ (sqlClose ++ b))))
      = "SELECT 1;".data ∧
    get_sql_from_ai_response s = pyStrip s := by
  refine ⟨extract_first_block a c b ha hc, ?_, extract_no_block s hs⟩
  rw [extract_first_block a "SELECT 1;".data b ha (by decide)]
  decide

/-- C3 witness: a response with prose, a first `sql` block containing
`SELECT 1;`, and a second fenced block that is ignored; and a fence-free
response returned whole, stripped. -/
theorem C3_sql_extraction_witness :
    get_sql_from_ai_response ("Here is the query:\n".data ++ (sqlOpen ++
        ("SELECT 1;".data ++ (sqlClose ++ "\nsecond:\n```sql\nSELECT 9;\n```".data))))
      = "SELECT 1;".data ∧
    get_sql_from_ai_response "  SELECT 2;  ".data = pyStrip "  SELECT 2;  ".data := by
  refine ⟨?_, ?_⟩
  · exact (C3_sql_extraction "Here is the query:\n".data "SELECT 1;".data
      "\nsecond:\n```sql\nSELECT 9;\n```".data "  SELECT 2;  ".data
      (by decide) (by decide) (by decide)).2.1
  · exact (C3_sql_extraction "Here is the query:\n".data "SELECT 1;".data
      "\nsecond:\n```sql\nSELECT 9;\n```".data "  SELECT 2;  ".data
      (by decide) (by decide) (by decide)).2.2

/-- C4: loading the persisted thread store never raises: it is a total
function; a missing file loads as the empty collection, and any file
content that `json.load` rejects loads as the empty collection. -/
theorem C4_load_never_fails :
    load_threads_from_disk Disk.missing = Json.arr [] ∧
    ∀ content, parseJson content = none →
      load_threads_from_disk (Disk.file content) = Json.arr [] := by
  refine ⟨rfl, ?_⟩
  intro content h
  simp [load_threads_from_disk, h]

/-- C4 witness: an empty (truncated/corrupted) cache file loads as the
empty collection. -/
theorem C4_load_never_fails_witness :
    load_threads_from_disk (Disk.file []) = Json.arr [] :=
  C4_load_never_fails.2 [] (by
    unfold parseJson
    rw [show ([] : Str).length + 4 = 3 + 1 from rfl]
    simp only [parseValue]
    rw [show skipWs [] = [] from rfl, show (3 : Nat) = 2 + 1 from rfl]
    simp only [parseValueCore])

/-- C5: round-trip persistence.  Creating a thread persists the whole
collection; reloading the persisted file (a fresh parse of the bytes on
disk, as after a restart) and reading it back with the page's key accesses
yields exactly the new collection, whose first thread has the generated
id, the truncated title, and the user/assistant message pair. -/
theorem C5_round_trip_persistence (ts : List Thread) (question report newId : Str) :
    jsonToThreads (load_threads_from_disk (create_new_thread ts question report newId).2.1)
      = some (mkThread question report newId :: ts) ∧
    (create_new_thread ts question report newId).1 = mkThread question report newId :: ts ∧
    (mkThread question report newId).id = newId ∧
    (mkThread question report newId).title = truncate_text question 35 ∧
    (mkThread question report newId).messages
      = [⟨"user".data, question⟩, ⟨"assistant".data, report⟩] := by
  exact ⟨load_save_roundtrip _, rfl, rfl, rfl, rfl⟩

/-- C6: after the follow-up `Q2` is appended to a thread holding
`[user Q1, assistant R1]`, the answer-generation step receives the
formatted history of all earlier messages — exactly
`"User:\nQ1" ++ "\n\n" ++ "Assistant:\nR1"`, so both literal substrings in
chronological order separated by a blank line — while `Q2` is passed
separately as the follow-up question. -/
theorem C6_follow_up_history (id0 title0 q1 r1 q2 : Str) :
    (add_message_to_thread [⟨id0, title0, [⟨"user".data, q1⟩, ⟨"assistant".data, r1⟩]⟩]
        id0 "user".data q2).1
      = [⟨id0, title0, [⟨"user".data, q1⟩, ⟨"assistant".data, r1⟩, ⟨"user".data, q2⟩]⟩] ∧
    followUpInputs ⟨id0, title0, [⟨"user".data, q1⟩, ⟨"assistant".data, r1⟩, ⟨"user".data, q2⟩]⟩
      = some ("User".data ++ (':' :: ('\n' :: q1)) ++ "\n\n".data
               ++ ("Assistant".data ++ (':' :: ('\n' :: r1))), q2) := by
  constructor
  · simp [add_message_to_thread, appendToFirst]
  · simp [followUpInputs, format_conversation_history, joinSep]

/-- C7 (amended): in the 2_AI_EDA.py builder every successfully retrieved
DDL appears in the context, and the result equals the context built from
only the successfully enumerated tables (failing tables are skipped,
building continues with the remaining tables and the example-query
section); in the 2_AI_DB_Analyst.py builder a failing table aborts the DDL
loop, dropping every remaining table. -/
theorem C7_schema_context (ddl : Str → Except Str Str) (tables : List Str)
    (queryFiles : List (Str × Str)) :
    (∀ t, t ∈ tables → ∀ d, ddl t = Except.ok d →
      d <:+: get_database_context_eda ddl tables queryFiles) ∧
    get_database_context_eda ddl tables queryFiles =
      get_database_context_eda ddl (tables.filter fun t => (ddl t).toOption.isSome)
        queryFiles ∧
    (∀ (t : Str) (rest : List Str) (e : Str), ddl t = Except.error e →
      analystDdlParts ddl (t :: rest) = []) := by
  refine ⟨?_, ?_, ?_⟩
  · intro t ht d hd
    apply mem_infix_joinSep
    have hmem : d ∈ tables.filterMap fun t => (ddl t).toOption :=
      List.mem_filterMap.mpr ⟨t, ht, by simp [hd, Except.toOption]⟩
    simp only [get_database_context_eda, List.mem_cons, List.mem_append]
    exact Or.inr (Or.inl hmem)
  · simp only [get_database_context_eda]
    rw [← filterMap_filter_isSome]
  · intro t rest e he
    simp [analystDdlParts, he]

/-- C7 counterexample: with tables `[t1, t2]` where `t1`'s DDL retrieval
fails and `t2`'s succeeds, the claim (a failing table never loses the DDL
of other tables) is false for the 2_AI_DB_Analyst.py builder: `t2`'s DDL
appears in the EDA context but not in the DB-Analyst context. -/
theorem C7_schema_context_counterexample :
    ("CREATE TABLE t2".data <:+: get_database_context_eda ddlW tablesW []) ∧
    ¬ ("CREATE TABLE t2".data <:+: get_database_context_analyst ddlW tablesW []) ∧
    get_database_context_analyst ddlW tablesW [] ≠
      get_database_context_eda ddlW tablesW [] := by
  refine ⟨?_, ?_, ?_⟩ <;> decide

/-- C7 witness: the surviving table's DDL is contained in the EDA context. -/
theorem C7_schema_context_witness :
    "CREATE TABLE t2".data <:+: get_database_context_eda ddlW tablesW [] :=
  (C7_schema_context ddlW tablesW []).1 "t2".data (by decide) "CREATE TABLE t2".data rfl

/-- C8: creating T1 then T2 lists T2 before T1 with the earlier collection
preserved behind them; every create inserts the new thread at the front. -/
theorem C8_most_recent_first (ts : List Thread) (q1 r1 id1 q2 r2 id2 : Str) :
    (create_new_thread (create_new_thread ts q1 r1 id1).1 q2 r2 id2).1
      = mkThread q2 r2 id2 :: (mkThread q1 r1 id1 :: ts) ∧
    ∀ (ts2 : List Thread) (q r i : Str),
      (create_new_thread ts2 q r i).1 = mkThread q r i :: ts2 :=
  ⟨rfl, fun _ _ _ _ => rfl⟩

/-- C9: a 50-character question gives a title of its first 35 characters
plus the 3-character `...` marker (38 characters total), and that is the
created thread's title; a 20-character question is used unchanged. -/
theorem C9_title_truncation (q50 q20 r newId : Str)
    (h50 : q50.length = 50) (h20 : q20.length = 20) :
    truncate_text q50 35 = q50.take 35 ++ "...".data ∧
    (truncate_text q50 35).length = 38 ∧
    (mkThread q50 r newId).title = q50.take 35 ++ "...".data ∧
    truncate_text q20 35 = q20 ∧
    (mkThread q20 r newId).title = q20 := by
  have h1 : truncate_text q50 35 = q50.take 35 ++ "...".data := by
    simp [truncate_text, h50]
  have h2 : truncate_text q20 35 = q20 := by
    simp [truncate_text, h20]
  refine ⟨h1, ?_, ?_, h2, ?_⟩
  · simp [h1, List.length_take, h50]
  · simpa [mkThread] using h1
  · simpa [mkThread] using h2

/-- C9 witness: concrete 50- and 20-character questions. -/
theorem C9_title_truncation_witness :
    truncate_text (List.replicate 50 'a') 35
      = (List.replicate 50 'a').take 35 ++ "...".data ∧
    (truncate_text (List.replicate 50 'a') 35).length = 38 ∧
    truncate_text (List.replicate 20 'b') 35 = List.replicate 20 'b' := by
  have h := C9_title_truncation (List.replicate 50 'a') (List.replicate 20 'b')
    "r".data "id".data (by simp) (by simp)
  exact ⟨h.1, h.2.1, h.2.2.2.1⟩

/-- C10: deletion filters the collection by id: deleting twice equals
deleting once, and deleting an id not present leaves the collection
unchanged. -/
theorem C10_delete_idempotent (ts : List Thread) (tid : Str) :
    (delete_thread (delete_thread ts tid).1 tid).1 = (delete_thread ts tid).1 ∧
    ((∀ t ∈ ts, t.id ≠ tid) → (delete_thread ts tid).1 = ts) := by
  constructor
  · simp [delete_thread, List.filter_filter]
  · intro h
    simp only [delete_thread]
    rw [List.filter_eq_self]
    intro t ht
    simpa using h t ht

/-- C10 witness: deleting an absent id from a concrete collection leaves
it unchanged, twice-deleting equals once-deleting. -/
theorem C10_delete_idempotent_witness :
    (delete_thread (delete_thread [mkThread "q".data "r".data "a".data] "z".data).1
        "z".data).1
      = (delete_thread [mkThread "q".data "r".data "a".data] "z".data).1 ∧
    (delete_thread [mkThread "q".data "r".data "a".data] "z".data).1
      = [mkThread "q".data "r".data "a".data] := by
  refine ⟨(C10_delete_idempotent [mkThread "q".data "r".data "a".data] "z".data).1, ?_⟩
  exact (C10_delete_idempotent [mkThread "q".data "r".data "a".data] "z".data).2
    (by decide)

end RTS
